import Mathlib

/-!
Verification of the folder/file engine of the `odin-file-uploader` repository.

The Lean definitions below are a shallow embedding of the JavaScript services
`src/services/folderService.js` and `src/services/fileService.js`, of the Prisma
error handler `src/utils/prismaErrorHandler.js`, and of the relational schema
(`schema.prisma` plus the SQL migrations).  The relational store is modelled as
explicit lists of rows; every Prisma call is translated into the corresponding
pure list operation; the Cloudinary blob store is a function parameter so that
failures can be injected; calls to the blob store and the relational deletions
are additionally recorded in an event trace so ordering properties can be
stated.

Modelling notes, justified from the source:
* The PostgreSQL unique index `folders_name_user_id_parent_folder_id_key`
  (migration `20250213154944_init`) is declared over the nullable column
  `parent_folder_id`.  PostgreSQL unique indexes treat NULLs as distinct
  (`NULLS DISTINCT` is the default), and Prisma performs no extra check of its
  own, so two rows with the same `(name, user_id)` and NULL parent do NOT
  conflict.  The embedding reproduces this faithfully (`folderTripleTaken`).
  The same applies to `files_filename_user_id_folder_id_key` with its nullable
  `folder_id` column.
* Prisma reports a unique-constraint violation as error `P2002`, which
  `handlePrismaError` rethrows as `ValidationError "The following field(s)
  must be unique: …"`; this is the code's Conflict-kind error.
* `prisma.<model>.update` on a `where` clause matching no row raises `P2025`;
  `handlePrismaError` has no branch for `P2025`, so it falls through to the
  catch-all and throws `DatabaseError "An unexpected database error
  occurred."`.  The same catch-all wraps a failed Cloudinary batch deletion
  inside `deleteFolderById`.
* Row ids are `uuid()`-generated by the database.  Fresh ids are supplied as
  explicit parameters (`newId` / an id supply function); a uuid collision is
  not modelled, so primary-key conflicts do not arise.
* `uploadedAt`/`created_at` timestamps are kept as opaque strings; they play
  no role in any property considered here.
-/

namespace OdinFU

/-- A row of the `folders` table (model `Folder` of `schema.prisma`):
`id` (uuid pkey), `name`, owning `user_id`, nullable `parent_folder_id`. -/
structure Folder where
  id : String
  name : String
  userId : String
  parentFolderId : Option String
deriving Repr, DecidableEq

/-- A row of the `files` table (model `File` of `schema.prisma`): `id` (uuid
pkey), globally unique `cloud_id` and `url`, display `filename`, `format`,
`size`, opaque upload timestamp, owning `user_id`, nullable `folder_id`. -/
structure File where
  id : String
  cloudId : String
  filename : String
  format : String
  size : Nat
  url : String
  uploadedAt : String
  userId : String
  folderId : Option String
deriving Repr, DecidableEq

/-- The relational store: the two tables the folder/file engines touch.
(The user/session/share tables play no role in the verified operations.) -/
structure Store where
  folders : List Folder
  files : List File
deriving Repr, DecidableEq

/-- The concrete error classes thrown by the services, after translation by
`handlePrismaError` (`src/utils/prismaErrorHandler.js`) where applicable:
`ValidationError`, `NotFoundError`, `DatabaseError`, and a raw (non-Prisma)
error propagated unwrapped, as `deleteFileById` does with a failed Cloudinary
call. -/
inductive Err where
  | validationErr (msg : String)
  | notFound (msg : String)
  | database (msg : String)
  | cloud (msg : String)
deriving Repr, DecidableEq

/-- Observable external effects, recorded in order: calls to the Cloudinary
blob store (`api.delete_resources` batch / `uploader.destroy` single) and the
relational row deletions issued by Prisma. -/
inductive Event where
  | blobBatchDelete (cloudIds : List String)
  | blobDelete (cloudId : String)
  | folderRowDelete (folderId : String)
  | fileRowDelete (fileId : String)
deriving Repr, DecidableEq

/-- Embeds `prisma.folder.findFirst({ where: { userId, name, parentFolderId } })`:
first row (in table order) matching all three fields. -/
def findFirstFolder (st : Store) (userId name : String) (parentId : Option String) :
    Option Folder :=
  st.folders.find? (fun f =>
    decide (f.userId = userId ∧ f.name = name ∧ f.parentFolderId = parentId))

/-- Embeds `prisma.folder.findUnique({ where: { id, userId } })`: lookup by primary
key, additionally filtered by the owning user. -/
def findFolderScoped (st : Store) (folderId userId : String) : Option Folder :=
  st.folders.find? (fun f => decide (f.id = folderId ∧ f.userId = userId))

/-- Embeds `prisma.file.findUnique({ where: { id, userId } })`. -/
def findFileScoped (st : Store) (fileId userId : String) : Option File :=
  st.files.find? (fun f => decide (f.id = fileId ∧ f.userId = userId))

/-- The conflict test of the unique index
`folders_name_user_id_parent_folder_id_key` for an insert of
`(name, userId, parentId)`.  Because `parent_folder_id` is nullable and
PostgreSQL unique indexes treat NULLs as distinct, a row only conflicts when
the shared parent id is non-null. -/
def folderTripleTaken (fs : List Folder) (name userId : String)
    (parentId : Option String) : Bool :=
  fs.any (fun g =>
    decide (g.name = name ∧ g.userId = userId ∧ g.parentFolderId = parentId ∧
      parentId ≠ none))

/-- Embeds `createFolder(userId, folderName, parentFolderId)` of
`src/services/folderService.js`: validates the user id and the name are
non-empty strings, then `prisma.folder.create`.  A unique-index conflict is
reported by `handlePrismaError` (`P2002`) as the `ValidationError`
Conflict-kind error.  `newId` stands for the `uuid()` the database generates
for the new row. -/
def createFolder (st : Store) (newId userId folderName : String)
    (parentFolderId : Option String) : Except Err Folder × Store :=
  if userId = "" then
    (.error (.validationErr "Valid user ID (UUID) is required to create a folder."), st)
  else if folderName = "" then
    (.error (.validationErr "Folder name must be a non-empty string."), st)
  else if folderTripleTaken st.folders folderName userId parentFolderId then
    (.error (.validationErr "The following field(s) must be unique: name, userId, parentFolderId"), st)
  else
    let f : Folder := ⟨newId, folderName, userId, parentFolderId⟩
    (.ok f, { st with folders := st.folders ++ [f] })

/-- JavaScript `String.prototype.split` with a one-character separator, on the
character list: `"" ↦ [""]`, `"a/b" ↦ ["a","b"]`, `"a//b" ↦ ["a","","b"]`,
`"/a" ↦ ["","a"]`, `"a/" ↦ ["a",""]`. -/
def splitOnChar (sep : Char) : List Char → List (List Char)
  | [] => [[]]
  | c :: rest =>
    match splitOnChar sep rest with
    | [] => if c = sep then [[], []] else [[c]]
    | h :: t => if c = sep then [] :: h :: t else (c :: h) :: t

/-- Embeds JavaScript `s.split(sep)` for a one-character separator. -/
def jsSplit (sep : Char) (s : String) : List String :=
  (splitOnChar sep s.data).map (fun cs => String.mk cs)

/-- One lookup issued by path resolution: the `(name, parentFolderId)` pair
queried (the user id is fixed throughout one resolution). -/
abbrev Lookup := String × Option String

/-- Embeds the `for (const folderName of folderNames)` loop of `getFolderByPath`:
carries the parent id and the folder found so far exactly as the JS loop
carries `parentFolderId` and `currentFolder`, returning the final
`currentFolder` and the list of lookups that were actually issued. -/
def resolveSegs (st : Store) (userId : String) :
    Option String → Option Folder → List String → Option Folder × List Lookup
  | _, cur, [] => (cur, [])
  | parentId, _, name :: rest =>
    match findFirstFolder st userId name parentId with
    | none => (none, [(name, parentId)])
    | some f =>
      let r := resolveSegs st userId (some f.id) (some f) rest
      (r.1, (name, parentId) :: r.2)

/-- Embeds `getFolderByPath(userId, folderPath)` of `src/services/folderService.js`:
splits the path on `"/"` (JavaScript `split`, which turns `""` into `[""]`)
and walks the segments from the root. -/
def getFolderByPath (st : Store) (userId folderPath : String) :
    Option Folder × List Lookup :=
  resolveSegs st userId none none (jsSplit '/' folderPath)

/-- The direct children of a folder: all rows whose `parent_folder_id` equals
its id (the `children` relation included by `deleteFolderById`). -/
def childFoldersOf (st : Store) (fid : String) : List Folder :=
  st.folders.filter (fun f => decide (f.parentFolderId = some fid))

/-- The files directly inside one folder: all rows whose `folder_id` equals
its id (the `files` relation included by `deleteFolderById`). -/
def filesInFolder (st : Store) (fid : String) : List File :=
  st.files.filter (fun f => decide (f.folderId = some fid))

/-- Embeds step 2 of `deleteFolderById`: `allFiles = [...folder.files,
...folder.children.flatMap(sf => sf.files)]`, then `allFiles.map(f =>
f.cloudId)` — the blob ids of the direct files and of the files of direct
children (and of no deeper level). -/
def collectCloudIds (st : Store) (folder : Folder) : List String :=
  (filesInFolder st folder.id ++
    ((childFoldersOf st folder.id).map (fun c => filesInFolder st c.id)).flatten).map
    (fun f => f.cloudId)

/-- One round of the relational cascade over `folders_parent_folder_id_fkey
ON DELETE CASCADE`: add the ids of all folders whose parent is already marked
deleted. -/
def expandIds (fs : List Folder) (ids : List String) : List String :=
  ids ++ (fs.filter (fun f =>
    (match f.parentFolderId with
     | some p => decide (p ∈ ids)
     | none => false) && !(decide (f.id ∈ ids)))).map (fun f => f.id)

/-- Iterate `expandIds` a fixed number of rounds (`fs.length` rounds reach the
fixpoint, see `closed_cascadeFolderIds`). -/
def saturateIds (fs : List Folder) : Nat → List String → List String
  | 0, ids => ids
  | n + 1, ids => saturateIds fs n (expandIds fs ids)

/-- All folder ids removed by `DELETE FROM folders WHERE id = root` under the
self-referencing cascade: the transitive closure of the child relation,
computed by saturation. -/
def cascadeFolderIds (fs : List Folder) (root : String) : List String :=
  saturateIds fs fs.length [root]

/-- The relational effect of `prisma.folder.delete({ where: { id: root } })`:
the row, every descendant folder row (`folders_parent_folder_id_fkey`), and
every file row inside a deleted folder (`files_folder_id_fkey`) disappear. -/
def cascadeDeleteFolder (st : Store) (root : String) : Store :=
  let dead := cascadeFolderIds st.folders root
  { folders := st.folders.filter (fun f => !(decide (f.id ∈ dead))),
    files := st.files.filter (fun f =>
      match f.folderId with
      | none => true
      | some p => !(decide (p ∈ dead))) }

/-- Embeds `deleteFolderById(folderId, userId)` of `src/services/folderService.js`:
validate the user id; fetch the folder scoped by `(id, userId)` with its
direct files and its children's files; throw `NotFoundError` if absent;
collect the Cloudinary ids; if any, issue one batch blob deletion — a failure
there is wrapped by `handlePrismaError`'s catch-all into `DatabaseError` and
nothing relational is touched; otherwise delete the folder row and let the
store cascade. -/
def deleteFolderById (blobBatch : List String → Except String Unit)
    (st : Store) (folderId userId : String) :
    Except Err String × Store × List Event :=
  if userId = "" then
    (.error (.validationErr "Valid user ID (UUID) is required to delete a folder."), st, [])
  else
    match findFolderScoped st folderId userId with
    | none => (.error (.notFound "Folder not found."), st, [])
    | some folder =>
      let cloudinaryFileIds := collectCloudIds st folder
      if cloudinaryFileIds.length > 0 then
        match blobBatch cloudinaryFileIds with
        | .error _ =>
          (.error (.database "An unexpected database error occurred."), st,
            [Event.blobBatchDelete cloudinaryFileIds])
        | .ok _ =>
          (.ok "Folder and its contents deleted successfully.",
            cascadeDeleteFolder st folderId,
            [Event.blobBatchDelete cloudinaryFileIds, Event.folderRowDelete folderId])
      else
        (.ok "Folder and its contents deleted successfully.",
          cascadeDeleteFolder st folderId,
          [Event.folderRowDelete folderId])

/-- Embeds `deleteFileById(fileId, userId)` of `src/services/fileService.js`:
validate the user id; fetch the file scoped by `(id, userId)`; throw
`NotFoundError` if absent; delete the blob (`cloudinary.uploader.destroy`) —
on failure the raw error is rethrown by the catch block (it is not a Prisma
error) and the row is kept; only then `prisma.file.delete({ where: { id } })`. -/
def deleteFileById (blobDestroy : String → Except String Unit)
    (st : Store) (fileId userId : String) :
    Except Err String × Store × List Event :=
  if userId = "" then
    (.error (.validationErr "Valid user ID (UUID) is required to delete files."), st, [])
  else
    match findFileScoped st fileId userId with
    | none => (.error (.notFound "File not found."), st, [])
    | some file =>
      match blobDestroy file.cloudId with
      | .error e => (.error (.cloud e), st, [Event.blobDelete file.cloudId])
      | .ok _ =>
        (.ok "File deleted successfully.",
          { st with files := st.files.filter (fun f => !(decide (f.id = fileId))) },
          [Event.blobDelete file.cloudId, Event.fileRowDelete fileId])

/-- A Cloudinary upload response, as consumed by `createFiles` (the fields it
reads: `public_id`, `original_filename`, `bytes`, `secure_url`, `created_at`). -/
structure Upload where
  public_id : String
  original_filename : String
  bytes : Nat
  secure_url : String
  created_at : String
deriving Repr, DecidableEq

/-- One element of `uploadData` in `createFiles`: the upload mapped to a
`files` row; `format` is `upload.public_id.split(".").pop()` and `newId` is
the `uuid()` the database generates. -/
def mkFileRow (newId : String) (u : Upload) (userId : String)
    (folderId : Option String) : File :=
  { id := newId
    cloudId := u.public_id
    filename := u.original_filename
    format := (jsSplit '.' u.public_id).getLastD ""
    size := u.bytes
    url := u.secure_url
    uploadedAt := u.created_at
    userId := userId
    folderId := folderId }

/-- Whether an existing row `g` makes inserting `f` hit one of the unique
constraints of `files` (`cloud_id`, `url`, or `(filename, user_id,
folder_id)` — the last with PostgreSQL NULLS-DISTINCT semantics on the
nullable `folder_id`).  Ids are database-generated uuids, so the primary key
never collides and is not part of the test. -/
def fileUniqueConflict (g f : File) : Bool :=
  decide (g.cloudId = f.cloudId) || decide (g.url = f.url) ||
    (decide (g.filename = f.filename) && decide (g.userId = f.userId) &&
      decide (g.folderId = f.folderId) && f.folderId.isSome)

/-- One row of PostgreSQL `INSERT … ON CONFLICT DO NOTHING`: skip the row if
it conflicts with any already-present row, else append it and count it. -/
def insertStep (acc : Nat × List File) (row : File) : Nat × List File :=
  if acc.2.any (fun g => fileUniqueConflict g row) then acc
  else (acc.1 + 1, acc.2 ++ [row])

/-- Embeds `prisma.file.createMany({ data, skipDuplicates: true })`: rows are
inserted in order and a row that conflicts with any already-present row
(pre-existing or earlier in the batch) on any unique constraint is skipped
silently.  Returns the inserted count and the resulting table. -/
def insertSkipDuplicates (init : List File) (rows : List File) : Nat × List File :=
  rows.foldl insertStep (0, init)

/-- The `uploadData` array of `createFiles`: each upload mapped to a row,
with its position-indexed database-generated id. -/
def uploadRows (newIds : Nat → String) (uploads : List Upload) (userId : String)
    (folderId : Option String) : List File :=
  uploads.enum.map (fun iu => mkFileRow (newIds iu.1) iu.2 userId folderId)

/-- Embeds `createFiles(uploads, userId, folderId)` of `src/services/fileService.js`:
validate the user id, map the uploads to rows, bulk-insert with
`skipDuplicates: true`, and return `{ count }`.  `newIds n` is the `uuid()`
generated for the `n`-th row. -/
def createFiles (st : Store) (newIds : Nat → String) (uploads : List Upload)
    (userId : String) (folderId : Option String) : Except Err Nat × Store :=
  if userId = "" then
    (.error (.validationErr "Valid user ID (UUID) is required to upload files"), st)
  else
    let result := insertSkipDuplicates st.files (uploadRows newIds uploads userId folderId)
    (.ok result.1, { st with files := result.2 })

/-- The whitespace characters stripped by JavaScript `String.prototype.trim`
(restricted to the ASCII range; the name-validation regexes reject every
non-ASCII character before `trim`'s result is ever stored). -/
def jsWhitespace (c : Char) : Bool :=
  c = ' ' || c = '\t' || c = '\n' || c = '\r' || c = '\x0b' || c = '\x0c'

/-- JavaScript `s.trim()`: drop leading whitespace, then trailing whitespace
(via reverse). -/
def jsTrim (s : String) : String :=
  String.mk (((s.data.dropWhile jsWhitespace).reverse.dropWhile jsWhitespace).reverse)

/-- The character class of the folder rename regex `/^[a-zA-Z0-9-_ ]+$/`. -/
def folderNameChar (c : Char) : Bool :=
  c.isAlphanum || c = '-' || c = '_' || c = ' '

/-- The character class of the file rename regex `/^[a-zA-Z0-9-_ .]+$/`. -/
def fileNameChar (c : Char) : Bool :=
  c.isAlphanum || c = '-' || c = '_' || c = ' ' || c = '.'

/-- Embeds `/^[a-zA-Z0-9-_ ]+$/.test(s)`: non-empty and every character in the
class. -/
def matchesFolderNameRegex (s : String) : Bool :=
  !s.data.isEmpty && s.data.all folderNameChar

/-- Embeds `/^[a-zA-Z0-9-_ .]+$/.test(s)`. -/
def matchesFileNameRegex (s : String) : Bool :=
  !s.data.isEmpty && s.data.all fileNameChar

/-- The conflict test the `folders` unique index applies to an `UPDATE` that
renames row `r` to `newName`: some other row carries the same triple (again
with NULLS-DISTINCT semantics on `parent_folder_id`). -/
def folderRenameConflict (fs : List Folder) (r : Folder) (newName : String) : Bool :=
  fs.any (fun g =>
    decide (g.id ≠ r.id ∧ g.name = newName ∧ g.userId = r.userId ∧
      g.parentFolderId = r.parentFolderId ∧ r.parentFolderId ≠ none))

/-- Embeds `renameFolderById(folderId, userId, newFolderName)` of
`src/services/folderService.js`: validate the user id and the new name
(non-empty, non-empty after trim, allowed characters); then
`prisma.folder.update({ where: { id, userId }, data: { name: trim } })`.
No matching row raises Prisma `P2025`, for which `handlePrismaError` has no
branch, so the caller sees the catch-all `DatabaseError` — not
`NotFoundError`.  A unique-index conflict surfaces as the `P2002`
`ValidationError`. -/
def renameFolderById (st : Store) (folderId userId newFolderName : String) :
    Except Err Folder × Store :=
  if userId = "" then
    (.error (.validationErr "Valid user ID (UUID) is required to rename folders."), st)
  else if newFolderName = "" || jsTrim newFolderName = "" then
    (.error (.validationErr "A valid folder name is required."), st)
  else if !matchesFolderNameRegex newFolderName then
    (.error (.validationErr "Filename contains invalid characters. Only letters, numbers, spaces, dashes, underscores, and dots are allowed."), st)
  else
    match findFolderScoped st folderId userId with
    | none => (.error (.database "An unexpected database error occurred."), st)
    | some r =>
      let newName := jsTrim newFolderName
      if folderRenameConflict st.folders r newName then
        (.error (.validationErr "The following field(s) must be unique: name, userId, parentFolderId"), st)
      else
        let r' : Folder := { r with name := newName }
        (.ok r', { st with folders := st.folders.map (fun g => if g.id = r.id then r' else g) })

/-- The conflict test of the `files` unique constraints for an `UPDATE` that
renames row `r` to `newName` (only the `(filename, user_id, folder_id)` index
involves the changed column; `folder_id` is nullable, hence NULLS DISTINCT). -/
def fileRenameConflict (fls : List File) (r : File) (newName : String) : Bool :=
  fls.any (fun g =>
    decide (g.id ≠ r.id ∧ g.filename = newName ∧ g.userId = r.userId ∧
      g.folderId = r.folderId ∧ r.folderId ≠ none))

/-- Embeds `renameFileById(userId, fileId, newFilename)` of
`src/services/fileService.js`: same contract as the folder rename with `.`
additionally allowed; no matching `(id, userId)` row again surfaces as the
catch-all `DatabaseError` (Prisma `P2025`). -/
def renameFileById (st : Store) (userId fileId newFilename : String) :
    Except Err File × Store :=
  if userId = "" then
    (.error (.validationErr "Valid user ID (UUID) is required to rename files"), st)
  else if newFilename = "" || jsTrim newFilename = "" then
    (.error (.validationErr "A valid new filename is required."), st)
  else if !matchesFileNameRegex newFilename then
    (.error (.validationErr "Filename contains invalid characters. Only letters, numbers, spaces, dashes, underscores, and dots are allowed."), st)
  else
    match findFileScoped st fileId userId with
    | none => (.error (.database "An unexpected database error occurred."), st)
    | some r =>
      let newName := jsTrim newFilename
      if fileRenameConflict st.files r newName then
        (.error (.validationErr "The following field(s) must be unique: filename, userId, folderId"), st)
      else
        let r' : File := { r with filename := newName }
        (.ok r', { st with files := st.files.map (fun g => if g.id = r.id then r' else g) })

/-!  Declarative counterpart of path resolution: a non-empty segment list
resolves to `f` when each segment in turn is matched by `findFirstFolder`
under the previously matched folder, starting from the root, and `f` is the
folder matched by the final segment. -/
inductive Resolves (st : Store) (u : String) :
    Option String → List String → Folder → Prop
  | single {pid : Option String} {name : String} {f : Folder} :
      findFirstFolder st u name pid = some f → Resolves st u pid [name] f
  | cons {pid : Option String} {name name2 : String} {rest : List String}
      {g f : Folder} :
      findFirstFolder st u name pid = some g →
      Resolves st u (some g.id) (name2 :: rest) f →
      Resolves st u pid (name :: name2 :: rest) f

theorem resolveSegs_cons_none (st : Store) (u : String) (pid : Option String)
    (cur : Option Folder) (name : String) (rest : List String)
    (hx : findFirstFolder st u name pid = none) :
    resolveSegs st u pid cur (name :: rest) = (none, [(name, pid)]) := by
  simp only [resolveSegs, hx]

theorem resolveSegs_cons_some (st : Store) (u : String) (pid : Option String)
    (cur : Option Folder) (name : String) (rest : List String) (g : Folder)
    (hx : findFirstFolder st u name pid = some g) :
    resolveSegs st u pid cur (name :: rest) =
      ((resolveSegs st u (some g.id) (some g) rest).1,
        (name, pid) :: (resolveSegs st u (some g.id) (some g) rest).2) := by
  simp only [resolveSegs, hx]

theorem resolveSegs_some_iff (st : Store) (u : String) :
    ∀ (segs : List String), segs ≠ [] →
      ∀ (pid : Option String) (cur : Option Folder) (f : Folder),
        (resolveSegs st u pid cur segs).1 = some f ↔ Resolves st u pid segs f := by
  intro segs
  induction segs with
  | nil => intro h; exact absurd rfl h
  | cons name rest ih =>
    intro _ pid cur f
    cases hx : findFirstFolder st u name pid with
    | none =>
      rw [resolveSegs_cons_none st u pid cur name rest hx]
      constructor
      · intro h; exact absurd h (by simp)
      · intro hr
        cases hr with
        | single h1 => rw [hx] at h1; exact absurd h1 (by simp)
        | cons h1 _ => rw [hx] at h1; exact absurd h1 (by simp)
    | some g =>
      rw [resolveSegs_cons_some st u pid cur name rest g hx]
      cases rest with
      | nil =>
        constructor
        · intro h
          have hgf : g = f := by
            simpa [resolveSegs] using h
          subst hgf
          exact Resolves.single hx
        · intro hr
          cases hr with
          | single h1 =>
            rw [hx] at h1
            have hgf : g = f := Option.some.inj h1
            simp [resolveSegs, hgf]
      | cons name2 rest2 =>
        rw [show ((resolveSegs st u (some g.id) (some g) (name2 :: rest2)).1,
              (name, pid) :: (resolveSegs st u (some g.id) (some g) (name2 :: rest2)).2).1
            = (resolveSegs st u (some g.id) (some g) (name2 :: rest2)).1 from rfl]
        rw [ih (by simp) (some g.id) (some g) f]
        constructor
        · intro h; exact Resolves.cons hx h
        · intro hr
          cases hr with
          | cons h1 h2 =>
            rw [hx] at h1
            have hg : g = _ := Option.some.inj h1
            rw [hg]
            exact h2

theorem resolves_matches_final (st : Store) (u : String)
    {pid : Option String} {segs : List String} {f : Folder}
    (h : Resolves st u pid segs f) :
    f.userId = u ∧ segs.getLast? = some f.name := by
  induction h with
  | single h1 =>
    have hp := List.find?_some h1
    have hp' := of_decide_eq_true hp
    exact ⟨hp'.1, by simp [hp'.2.1]⟩
  | cons h1 h2 ih =>
    exact ⟨ih.1, by rw [List.getLast?_cons_cons]; exact ih.2⟩

/-- Claim C2 — for every user `U` and non-empty segment sequence `P`, resolution
starts at `parentId = null`, matches segment by segment via
`(userId, name, parentFolderId)` lookups, returns the folder matched by the
final segment exactly when the whole chain matches (`Resolves`), performs only
the single failing lookup when a segment has no match (short-circuit: the
result and the one-element lookup trace are independent of all later
segments), and never returns a partial match (any returned folder belongs to
`U` and is named by the final segment).  `getFolderByPath` is this resolution
applied to the slash-split path. -/
theorem claim_C2_path_resolution (st : Store) (u : String)
    (segs : List String) (hne : segs ≠ []) :
    (∀ f, (resolveSegs st u none none segs).1 = some f ↔ Resolves st u none segs f)
    ∧ (∀ (name : String) (pid : Option String) (cur : Option Folder)
        (rest : List String), findFirstFolder st u name pid = none →
          resolveSegs st u pid cur (name :: rest) = (none, [(name, pid)]))
    ∧ (∀ f, (resolveSegs st u none none segs).1 = some f →
        f.userId = u ∧ segs.getLast? = some f.name)
    ∧ (∀ p : String, getFolderByPath st u p = resolveSegs st u none none (jsSplit '/' p)) := by
  refine ⟨fun f => resolveSegs_some_iff st u segs hne none none f, ?_, ?_, fun _ => rfl⟩
  · intro name pid cur rest hx
    simp [resolveSegs, hx]
  · intro f h
    exact resolves_matches_final st u ((resolveSegs_some_iff st u segs hne none none f).mp h)

/-- Witness for C2 at a concrete store and path `["docs", "reports"]`. -/
def c2Store : Store :=
  ⟨[⟨"fd", "docs", "u1", none⟩, ⟨"fr", "reports", "u1", some "fd"⟩], []⟩

theorem claim_C2_path_resolution_witness :
    (∀ f, (resolveSegs c2Store "u1" none none ["docs", "reports"]).1 = some f ↔
        Resolves c2Store "u1" none ["docs", "reports"] f)
    ∧ (∀ (name : String) (pid : Option String) (cur : Option Folder)
        (rest : List String), findFirstFolder c2Store "u1" name pid = none →
          resolveSegs c2Store "u1" pid cur (name :: rest) = (none, [(name, pid)]))
    ∧ (∀ f, (resolveSegs c2Store "u1" none none ["docs", "reports"]).1 = some f →
        f.userId = "u1" ∧ ["docs", "reports"].getLast? = some f.name)
    ∧ (∀ p : String, getFolderByPath c2Store "u1" p =
        resolveSegs c2Store "u1" none none (jsSplit '/' p)) :=
  claim_C2_path_resolution c2Store "u1" ["docs", "reports"] (by simp)

/-- Claim C10 — `getFolderByPath` on the empty string splits it into the single
empty segment, issues exactly one lookup — for a folder named `""` at the
root — and, provided every stored folder name is non-empty, returns `null`
(no folder, the NotFound outcome) rather than resolving to the root; the
function body has no throwing path (its return type is a plain value). -/
theorem claim_C10_empty_path (st : Store) (u : String)
    (h : ∀ f ∈ st.folders, f.name ≠ "") :
    getFolderByPath st u "" = (none, [("", (none : Option String))]) := by
  have hx : findFirstFolder st u "" none = none := by
    apply List.find?_eq_none.mpr
    intro x hmem
    simp only [decide_eq_true_eq, not_and]
    intro _ hname
    exact absurd hname (h x hmem)
  show resolveSegs st u none none (jsSplit '/' "") = _
  rw [show jsSplit '/' "" = [""] from rfl]
  exact resolveSegs_cons_none st u none none "" [] hx

/-- Witness for C10: a store holding one root folder named `"a"`. -/
def c10Store : Store := ⟨[⟨"fa", "a", "u1", none⟩], []⟩

theorem claim_C10_empty_path_witness :
    getFolderByPath c10Store "u1" "" = (none, [("", (none : Option String))]) :=
  claim_C10_empty_path c10Store "u1" (by decide)

/-- The store after the first `createFolder("u1", "docs", null)` call on an
empty store (used by the C3 counter-evaluation). -/
def c3StoreAfterFirst : Store := (createFolder ⟨[], []⟩ "f1" "u1" "docs" none).2

/-- Claim C3 (code bug) — the unique index
`folders_name_user_id_parent_folder_id_key` is declared over the nullable
`parent_folder_id`, and PostgreSQL treats NULLs as distinct, so at the root
level the second `createFolder` with an identical `(name, userId, null)`
triple does NOT fail `Conflict`: it succeeds and leaves two rows with the
same triple — contradicting the schema's own comment ("a user can't have
duplicate folders at the same level").  With a non-null parent the conflict
fires as documented (last conjunct). -/
theorem claim_C3_root_duplicate_slips_through :
    (createFolder (⟨[], []⟩ : Store) "f1" "u1" "docs" none).1 =
      Except.ok (⟨"f1", "docs", "u1", none⟩ : Folder)
    ∧ (createFolder c3StoreAfterFirst "f2" "u1" "docs" none).1 =
      Except.ok (⟨"f2", "docs", "u1", none⟩ : Folder)
    ∧ ((createFolder c3StoreAfterFirst "f2" "u1" "docs" none).2.folders.filter
        (fun g => decide (g.name = "docs" ∧ g.userId = "u1" ∧ g.parentFolderId = none))).length = 2
    ∧ (createFolder (⟨[⟨"p1", "parent", "u1", none⟩, ⟨"c1", "docs", "u1", some "p1"⟩], []⟩ : Store)
        "c2" "u1" "docs" (some "p1")).1 =
      Except.error (Err.validationErr
        "The following field(s) must be unique: name, userId, parentFolderId") :=
  ⟨rfl, rfl, rfl, rfl⟩

/-- Claim C1 — if the batch blob deletion issued by `deleteFolderById` fails,
the operation fails with the `DatabaseError` class (the concrete type that
realizes the spec's ExternalServiceError kind, produced by
`handlePrismaError`) and no relational deletion occurs: the returned store is
exactly the input store — every folder row, descendant row and file row is
unchanged — and the trace holds the failed blob call only. -/
theorem claim_C1_blob_failure_keeps_rows (blob : List String → Except String Unit)
    (st : Store) (folderId userId : String) (folder : Folder) (e : String)
    (hu : userId ≠ "")
    (hfind : findFolderScoped st folderId userId = some folder)
    (hne : collectCloudIds st folder ≠ [])
    (hblob : blob (collectCloudIds st folder) = Except.error e) :
    deleteFolderById blob st folderId userId =
      (Except.error (Err.database "An unexpected database error occurred."), st,
        [Event.blobBatchDelete (collectCloudIds st folder)]) := by
  unfold deleteFolderById
  rw [if_neg hu, hfind]
  simp only
  rw [if_pos (List.length_pos.mpr hne), hblob]

/-- Witness store for C1: one root folder of `u1` holding one file. -/
def c1Store : Store :=
  ⟨[⟨"r1", "docs", "u1", none⟩],
    [⟨"fl1", "ca", "a.png", "png", 5, "https://a", "t1", "u1", some "r1"⟩]⟩

theorem claim_C1_blob_failure_keeps_rows_witness :
    deleteFolderById (fun _ => Except.error "cloudinary down") c1Store "r1" "u1" =
      (Except.error (Err.database "An unexpected database error occurred."), c1Store,
        [Event.blobBatchDelete (collectCloudIds c1Store ⟨"r1", "docs", "u1", none⟩)]) :=
  claim_C1_blob_failure_keeps_rows (fun _ => Except.error "cloudinary down")
    c1Store "r1" "u1" ⟨"r1", "docs", "u1", none⟩ "cloudinary down"
    (by decide) rfl (by decide) rfl

/-!  Correctness of the cascade computation: `cascadeFolderIds` computes
exactly the declarative descendant closure `Desc`. -/

/-- Relation `Desc fs root x`: folder id `x` is removed when folder `root` is deleted —
either `x` is `root` itself, or `x` is a row whose parent is already
removed (the transitive closure of `folders_parent_folder_id_fkey`). -/
inductive Desc (fs : List Folder) (root : String) : String → Prop
  | base : Desc fs root root
  | step (f : Folder) (p : String) : f ∈ fs → Desc fs root p →
      f.parentFolderId = some p → Desc fs root f.id

/-- Predicate: `ids` is closed under the child relation, saturation has finished. -/
def ClosedUnder (fs : List Folder) (ids : List String) : Prop :=
  ∀ f ∈ fs, ∀ p, f.parentFolderId = some p → p ∈ ids → f.id ∈ ids

theorem mem_expandIds_of_mem (fs : List Folder) (ids : List String) {x : String}
    (h : x ∈ ids) : x ∈ expandIds fs ids :=
  List.mem_append_left _ h

theorem expandIds_sound (fs : List Folder) (ids : List String) {x : String}
    (h : x ∈ expandIds fs ids) :
    x ∈ ids ∨ ∃ f ∈ fs, f.id = x ∧ ∃ p, f.parentFolderId = some p ∧ p ∈ ids := by
  rcases List.mem_append.mp h with h1 | h2
  · exact Or.inl h1
  · right
    rcases List.mem_map.mp h2 with ⟨f, hf, hfx⟩
    have hmem := List.mem_filter.mp hf
    have hand := hmem.2
    rw [Bool.and_eq_true] at hand
    obtain ⟨hpar, _⟩ := hand
    refine ⟨f, hmem.1, hfx, ?_⟩
    cases hp : f.parentFolderId with
    | none => rw [hp] at hpar; exact absurd hpar (by simp)
    | some p =>
      rw [hp] at hpar
      exact ⟨p, rfl, of_decide_eq_true hpar⟩

theorem mem_saturateIds_of_mem (fs : List Folder) :
    ∀ (n : Nat) (ids : List String) {x : String}, x ∈ ids →
      x ∈ saturateIds fs n ids := by
  intro n
  induction n with
  | zero => intro ids x h; exact h
  | succ n ih =>
    intro ids x h
    exact ih (expandIds fs ids) (mem_expandIds_of_mem fs ids h)

theorem saturateIds_sound (fs : List Folder) (root : String) :
    ∀ (n : Nat) (ids : List String), (∀ y ∈ ids, Desc fs root y) →
      ∀ x ∈ saturateIds fs n ids, Desc fs root x := by
  intro n
  induction n with
  | zero => intro ids hids x hx; exact hids x hx
  | succ n ih =>
    intro ids hids x hx
    refine ih (expandIds fs ids) ?_ x hx
    intro y hy
    rcases expandIds_sound fs ids hy with h1 | ⟨f, hf, hfx, p, hp, hpid⟩
    · exact hids y h1
    · rw [← hfx]
      exact Desc.step f p hf (hids p hpid) hp

theorem expandIds_eq_self_iff (fs : List Folder) (ids : List String) :
    expandIds fs ids = ids ↔ ClosedUnder fs ids := by
  constructor
  · intro heq f hf p hp hpid
    by_cases hin : f.id ∈ ids
    · exact hin
    · have hmem : f.id ∈ expandIds fs ids := by
        refine List.mem_append_right _ (List.mem_map.mpr ⟨f, ?_, rfl⟩)
        refine List.mem_filter.mpr ⟨hf, ?_⟩
        rw [hp]
        simp [hin, hpid]
      rw [heq] at hmem
      exact hmem
  · intro hcl
    have hnil : fs.filter (fun f =>
        (match f.parentFolderId with
         | some p => decide (p ∈ ids)
         | none => false) && !(decide (f.id ∈ ids))) = [] := by
      apply List.filter_eq_nil_iff.mpr
      intro f hf
      cases hp : f.parentFolderId with
      | none => simp
      | some p =>
        by_cases hpid : p ∈ ids
        · have := hcl f hf p hp hpid
          simp [this]
        · simp [hpid]
    unfold expandIds
    rw [hnil]
    simp

theorem saturateIds_of_fixpoint (fs : List Folder) {ids : List String}
    (h : expandIds fs ids = ids) : ∀ n, saturateIds fs n ids = ids := by
  intro n
  induction n with
  | zero => rfl
  | succ n ih =>
    show saturateIds fs n (expandIds fs ids) = ids
    rw [h]
    exact ih

theorem expandIds_length_grow (fs : List Folder) (ids : List String)
    (h : expandIds fs ids ≠ ids) :
    ids.length + 1 ≤ (expandIds fs ids).length := by
  unfold expandIds at h ⊢
  cases hnc : (fs.filter (fun f =>
      (match f.parentFolderId with
       | some p => decide (p ∈ ids)
       | none => false) && !(decide (f.id ∈ ids)))).map (fun f => f.id) with
  | nil => rw [hnc] at h; simp at h
  | cons a t =>
    simp only [List.length_append, List.length_cons]
    omega

theorem expandIds_nodup (fs : List Folder) (ids : List String)
    (hids : ids.Nodup) (hnd : (fs.map Folder.id).Nodup) :
    (expandIds fs ids).Nodup := by
  unfold expandIds
  rw [List.nodup_append]
  refine ⟨hids, ?_, ?_⟩
  · exact hnd.sublist (List.Sublist.map Folder.id (List.filter_sublist fs))
  · intro a ha hb
    rcases List.mem_map.mp hb with ⟨f, hf, hfx⟩
    have hmem := List.mem_filter.mp hf
    have hand := hmem.2
    rw [Bool.and_eq_true] at hand
    obtain ⟨_, hnotin⟩ := hand
    have : f.id ∉ ids := by
      intro hc
      rw [Bool.not_eq_true'] at hnotin
      exact absurd (decide_eq_true_eq.mpr hc) (by simp [hnotin])
    rw [← hfx] at ha
    exact this ha

theorem saturateIds_nodup (fs : List Folder) (hnd : (fs.map Folder.id).Nodup) :
    ∀ (n : Nat) (ids : List String), ids.Nodup → (saturateIds fs n ids).Nodup := by
  intro n
  induction n with
  | zero => intro ids h; exact h
  | succ n ih =>
    intro ids h
    exact ih (expandIds fs ids) (expandIds_nodup fs ids h hnd)

theorem saturateIds_bounded (fs : List Folder) :
    ∀ (n : Nat) (ids : List String) {x : String}, x ∈ saturateIds fs n ids →
      x ∈ ids ∨ x ∈ fs.map Folder.id := by
  intro n
  induction n with
  | zero => intro ids x h; exact Or.inl h
  | succ n ih =>
    intro ids x h
    rcases ih (expandIds fs ids) h with h1 | h2
    · rcases expandIds_sound fs ids h1 with h3 | ⟨f, hf, hfx, _⟩
      · exact Or.inl h3
      · exact Or.inr (List.mem_map.mpr ⟨f, hf, hfx⟩)
    · exact Or.inr h2

theorem saturateIds_closed_or_long (fs : List Folder) :
    ∀ (n : Nat) (ids : List String),
      ClosedUnder fs (saturateIds fs n ids) ∨
        ids.length + n ≤ (saturateIds fs n ids).length := by
  intro n
  induction n with
  | zero =>
    intro ids
    right
    show ids.length + 0 ≤ ids.length
    omega
  | succ n ih =>
    intro ids
    by_cases h : expandIds fs ids = ids
    · left
      have hfix : saturateIds fs (n + 1) ids = ids := by
        show saturateIds fs n (expandIds fs ids) = ids
        rw [h]
        exact saturateIds_of_fixpoint fs h n
      rw [hfix]
      exact (expandIds_eq_self_iff fs ids).mp h
    · rcases ih (expandIds fs ids) with h1 | h2
      · left; exact h1
      · right
        have := expandIds_length_grow fs ids h
        show ids.length + (n + 1) ≤ (saturateIds fs n (expandIds fs ids)).length
        omega

theorem closedUnder_cascadeFolderIds (fs : List Folder) (root : String)
    (hnd : (fs.map Folder.id).Nodup) :
    ClosedUnder fs (cascadeFolderIds fs root) := by
  rcases saturateIds_closed_or_long fs fs.length [root] with h | hlen
  · exact h
  · -- every round grew, so every folder id is already in the saturated list
    intro f hf p _ _
    set S := saturateIds fs fs.length [root] with hS
    have hSnd : S.Nodup := saturateIds_nodup fs hnd fs.length [root] (by simp)
    have hsub : S.toFinset ⊆ (root :: fs.map Folder.id).toFinset := by
      intro a ha
      rw [List.mem_toFinset] at ha ⊢
      rcases saturateIds_bounded fs fs.length [root] ha with h1 | h2
      · simp at h1; simp [h1]
      · exact List.mem_cons_of_mem root h2
    have hcard1 : S.toFinset.card = S.length := List.toFinset_card_of_nodup hSnd
    have hcard2 : (root :: fs.map Folder.id).toFinset.card ≤ fs.length + 1 := by
      calc (root :: fs.map Folder.id).toFinset.card
          ≤ (root :: fs.map Folder.id).length := List.toFinset_card_le _
        _ = fs.length + 1 := by simp
    have hge : 1 + fs.length ≤ S.length := by simpa using hlen
    have hcardle : (root :: fs.map Folder.id).toFinset.card ≤ S.toFinset.card := by
      omega
    have heq : S.toFinset = (root :: fs.map Folder.id).toFinset :=
      Finset.eq_of_subset_of_card_le hsub hcardle
    have hfid : f.id ∈ S := by
      rw [← List.mem_toFinset, heq, List.mem_toFinset]
      exact List.mem_cons_of_mem root (List.mem_map.mpr ⟨f, hf, rfl⟩)
    exact hfid

theorem mem_cascadeFolderIds (fs : List Folder) (root : String)
    (hnd : (fs.map Folder.id).Nodup) (x : String) :
    x ∈ cascadeFolderIds fs root ↔ Desc fs root x := by
  constructor
  · intro h
    refine saturateIds_sound fs root fs.length [root] ?_ x h
    intro y hy
    have : y = root := by simpa using hy
    rw [this]
    exact Desc.base
  · intro h
    induction h with
    | base => exact mem_saturateIds_of_mem fs fs.length [root] (by simp)
    | step f p hf _ hpar ih =>
      exact closedUnder_cascadeFolderIds fs root hnd f hf p hpar ih

theorem mem_folders_cascadeDeleteFolder (st : Store) (root : String)
    (hnd : (st.folders.map Folder.id).Nodup) (g : Folder) :
    g ∈ (cascadeDeleteFolder st root).folders ↔
      g ∈ st.folders ∧ ¬ Desc st.folders root g.id := by
  simp only [cascadeDeleteFolder, List.mem_filter, Bool.not_eq_true',
    decide_eq_false_iff_not, mem_cascadeFolderIds st.folders root hnd]

theorem mem_files_cascadeDeleteFolder (st : Store) (root : String)
    (hnd : (st.folders.map Folder.id).Nodup) (f : File) :
    f ∈ (cascadeDeleteFolder st root).files ↔
      f ∈ st.files ∧ ∀ p, f.folderId = some p → ¬ Desc st.folders root p := by
  simp only [cascadeDeleteFolder, List.mem_filter]
  cases hp : f.folderId with
  | none => simp
  | some p =>
    simp [Bool.not_eq_true', decide_eq_false_iff_not,
      mem_cascadeFolderIds st.folders root hnd]

/-- Claim C4 (amended) — when the scoped lookup succeeds and the blob store
accepts the batch, `deleteFolderById` removes from the relational store
exactly the folder, every descendant folder (`Desc`), and every file inside a
removed folder; it collects the blob ids of the direct files and of the files
of direct children, and — *when at least one blob id was collected* — issues
exactly one batch blob-deletion call covering them, strictly before the
relational deletion; when no blob id was collected it issues no blob call at
all (this conditional is what the original claim misses) and deletes the rows
directly. -/
theorem claim_C4_cascading_delete (blob : List String → Except String Unit)
    (st : Store) (folderId userId : String) (folder : Folder)
    (hnd : (st.folders.map Folder.id).Nodup)
    (hu : userId ≠ "")
    (hfind : findFolderScoped st folderId userId = some folder)
    (hblob : blob (collectCloudIds st folder) = Except.ok ()) :
    (deleteFolderById blob st folderId userId).1 =
      Except.ok "Folder and its contents deleted successfully."
    ∧ (∀ g ∈ st.folders,
        (g ∈ (deleteFolderById blob st folderId userId).2.1.folders ↔
          ¬ Desc st.folders folderId g.id))
    ∧ (∀ g ∈ (deleteFolderById blob st folderId userId).2.1.folders, g ∈ st.folders)
    ∧ (∀ fl ∈ st.files,
        (fl ∈ (deleteFolderById blob st folderId userId).2.1.files ↔
          ∀ p, fl.folderId = some p → ¬ Desc st.folders folderId p))
    ∧ (∀ fl ∈ (deleteFolderById blob st folderId userId).2.1.files, fl ∈ st.files)
    ∧ (deleteFolderById blob st folderId userId).2.2 =
        (if collectCloudIds st folder = [] then [Event.folderRowDelete folderId]
         else [Event.blobBatchDelete (collectCloudIds st folder),
           Event.folderRowDelete folderId]) := by
  have hrun : deleteFolderById blob st folderId userId =
      (Except.ok "Folder and its contents deleted successfully.",
        cascadeDeleteFolder st folderId,
        if collectCloudIds st folder = [] then [Event.folderRowDelete folderId]
        else [Event.blobBatchDelete (collectCloudIds st folder),
          Event.folderRowDelete folderId]) := by
    unfold deleteFolderById
    rw [if_neg hu, hfind]
    by_cases hids : collectCloudIds st folder = []
    · simp [hids]
    · simp only
      rw [if_pos (List.length_pos.mpr hids), hblob]
      simp [hids]
  refine ⟨by rw [hrun], ?_, ?_, ?_, ?_, by rw [hrun]⟩
  · intro g hg
    rw [hrun]
    rw [show (Except.ok (ε := Err) "Folder and its contents deleted successfully.",
      cascadeDeleteFolder st folderId,
      if collectCloudIds st folder = [] then [Event.folderRowDelete folderId]
      else [Event.blobBatchDelete (collectCloudIds st folder),
        Event.folderRowDelete folderId]).2.1 = cascadeDeleteFolder st folderId from rfl]
    rw [mem_folders_cascadeDeleteFolder st folderId hnd g]
    exact and_iff_right hg
  · intro g hg
    rw [hrun] at hg
    exact ((mem_folders_cascadeDeleteFolder st folderId hnd g).mp hg).1
  · intro fl hfl
    rw [hrun]
    rw [show (Except.ok (ε := Err) "Folder and its contents deleted successfully.",
      cascadeDeleteFolder st folderId,
      if collectCloudIds st folder = [] then [Event.folderRowDelete folderId]
      else [Event.blobBatchDelete (collectCloudIds st folder),
        Event.folderRowDelete folderId]).2.1 = cascadeDeleteFolder st folderId from rfl]
    rw [mem_files_cascadeDeleteFolder st folderId hnd fl]
    exact and_iff_right hfl
  · intro fl hfl
    rw [hrun] at hfl
    exact ((mem_files_cascadeDeleteFolder st folderId hnd fl).mp hfl).1

/-- Counterexample store for C4: one folder, no files anywhere. -/
def c4Store : Store := ⟨[⟨"f1", "docs", "u1", none⟩], []⟩

/-- Claim C4 counterexample — the claim as stated demands exactly one batch
blob-deletion call for *every* folder (`N` and `M` unconstrained); for a
folder whose first two levels contain no files (`N = 0`, `M = 0`), the code's
`if (cloudinaryFileIds.length > 0)` guard skips the blob call entirely: the
deletion succeeds with a trace containing no `blobBatchDelete` event. -/
theorem claim_C4_counterexample :
    (deleteFolderById (fun _ => Except.ok ()) c4Store "f1" "u1").2.2 =
      [Event.folderRowDelete "f1"]
    ∧ (deleteFolderById (fun _ => Except.ok ()) c4Store "f1" "u1").1 =
      Except.ok "Folder and its contents deleted successfully." :=
  ⟨rfl, rfl⟩

/-- Witness store for C4: a root folder with one direct file, one child folder
with its own file, and an unrelated root-level file that must survive. -/
def c4WStore : Store :=
  ⟨[⟨"r1", "docs", "u1", none⟩, ⟨"c1", "sub", "u1", some "r1"⟩],
    [⟨"a1", "ca", "a.png", "png", 1, "https://a", "t", "u1", some "r1"⟩,
      ⟨"b1", "cb", "b.png", "png", 1, "https://b", "t", "u1", some "c1"⟩,
      ⟨"z1", "cz", "z.png", "png", 1, "https://z", "t", "u1", none⟩]⟩

theorem claim_C4_cascading_delete_witness :
    (deleteFolderById (fun _ => Except.ok ()) c4WStore "r1" "u1").1 =
      Except.ok "Folder and its contents deleted successfully."
    ∧ (∀ g ∈ c4WStore.folders,
        (g ∈ (deleteFolderById (fun _ => Except.ok ()) c4WStore "r1" "u1").2.1.folders ↔
          ¬ Desc c4WStore.folders "r1" g.id))
    ∧ (∀ g ∈ (deleteFolderById (fun _ => Except.ok ()) c4WStore "r1" "u1").2.1.folders,
        g ∈ c4WStore.folders)
    ∧ (∀ fl ∈ c4WStore.files,
        (fl ∈ (deleteFolderById (fun _ => Except.ok ()) c4WStore "r1" "u1").2.1.files ↔
          ∀ p, fl.folderId = some p → ¬ Desc c4WStore.folders "r1" p))
    ∧ (∀ fl ∈ (deleteFolderById (fun _ => Except.ok ()) c4WStore "r1" "u1").2.1.files,
        fl ∈ c4WStore.files)
    ∧ (deleteFolderById (fun _ => Except.ok ()) c4WStore "r1" "u1").2.2 =
        (if collectCloudIds c4WStore ⟨"r1", "docs", "u1", none⟩ = []
         then [Event.folderRowDelete "r1"]
         else [Event.blobBatchDelete (collectCloudIds c4WStore ⟨"r1", "docs", "u1", none⟩),
           Event.folderRowDelete "r1"]) :=
  claim_C4_cascading_delete (fun _ => Except.ok ()) c4WStore "r1" "u1"
    ⟨"r1", "docs", "u1", none⟩ (by decide) (by decide) rfl rfl

/-- Claim C6 — `deleteFileById` fetches the file scoped by `(id, userId)`; a
cross-user id (or any miss) yields `NotFoundError` with both stores untouched
(empty trace: the blob store is never called); when the file exists the blob
is deleted first, and on blob failure the raw error propagates with the row
kept; only after blob success is the relational row deleted. -/
theorem claim_C6_delete_file_scoping (blob : String → Except String Unit)
    (st : Store) (fileId userId : String) (hu : userId ≠ "") :
    ((∀ f ∈ st.files, f.id = fileId → f.userId ≠ userId) →
      findFileScoped st fileId userId = none)
    ∧ (findFileScoped st fileId userId = none →
        deleteFileById blob st fileId userId =
          (Except.error (Err.notFound "File not found."), st, []))
    ∧ (∀ file e, findFileScoped st fileId userId = some file →
        blob file.cloudId = Except.error e →
        deleteFileById blob st fileId userId =
          (Except.error (Err.cloud e), st, [Event.blobDelete file.cloudId]))
    ∧ (∀ file, findFileScoped st fileId userId = some file →
        blob file.cloudId = Except.ok () →
        deleteFileById blob st fileId userId =
          (Except.ok "File deleted successfully.",
            { st with files := st.files.filter (fun f => !(decide (f.id = fileId))) },
            [Event.blobDelete file.cloudId, Event.fileRowDelete fileId])) := by
  refine ⟨?_, ?_, ?_, ?_⟩
  · intro h
    apply List.find?_eq_none.mpr
    intro x hmem
    simp only [decide_eq_true_eq, not_and]
    intro hid
    exact h x hmem hid
  · intro hnone
    unfold deleteFileById
    rw [if_neg hu, hnone]
  · intro file e hsome hblob
    unfold deleteFileById
    rw [if_neg hu, hsome]
    simp only
    rw [hblob]
  · intro file hsome hblob
    unfold deleteFileById
    rw [if_neg hu, hsome]
    simp only
    rw [hblob]

/-- Witness store for C6: file `fx` belongs to user `u2`; the delete issued
by user `u1` must come back `NotFound` (the cross-user case of the claim). -/
def c6Store : Store :=
  ⟨[], [⟨"fx", "cx", "x.png", "png", 1, "https://x", "t", "u2", none⟩]⟩

/-- A blob store that rejects every deletion, for the C6 witness. -/
def c6Blob : String → Except String Unit := fun _ => Except.error "down"

theorem claim_C6_delete_file_scoping_witness :
    ((∀ f ∈ c6Store.files, f.id = "fx" → f.userId ≠ "u1") →
      findFileScoped c6Store "fx" "u1" = none)
    ∧ (findFileScoped c6Store "fx" "u1" = none →
        deleteFileById c6Blob c6Store "fx" "u1" =
          (Except.error (Err.notFound "File not found."), c6Store, []))
    ∧ (∀ file e, findFileScoped c6Store "fx" "u1" = some file →
        c6Blob file.cloudId = Except.error e →
        deleteFileById c6Blob c6Store "fx" "u1" =
          (Except.error (Err.cloud e), c6Store, [Event.blobDelete file.cloudId]))
    ∧ (∀ file, findFileScoped c6Store "fx" "u1" = some file →
        c6Blob file.cloudId = Except.ok () →
        deleteFileById c6Blob c6Store "fx" "u1" =
          (Except.ok "File deleted successfully.",
            { c6Store with
              files := c6Store.files.filter (fun f => !(decide (f.id = "fx"))) },
            [Event.blobDelete file.cloudId, Event.fileRowDelete "fx"])) :=
  claim_C6_delete_file_scoping c6Blob c6Store "fx" "u1" (by decide)

/-- Store for the C7 evaluation: folder `f1` and file `fl1` both belong to
user `u2`; user `u1` attempts the renames. -/
def c7Store : Store :=
  ⟨[⟨"f1", "docs", "u2", none⟩],
    [⟨"fl1", "c1", "a.txt", "txt", 1, "https://c1", "t", "u2", none⟩]⟩

/-- Claim C7 (code bug) — renaming a folder or file whose `(id, userId)` scope
matches no row (here: the id exists but belongs to another user) does NOT
fail `NotFound`: Prisma raises `P2025` from the scoped `update`, and
`handlePrismaError` has no `P2025` branch, so the caller receives the
catch-all generic `DatabaseError` — contradicting the spec and
`renameFileById`'s own doc comment ("Throws … NotFoundError: If the file
doesn't exist for the given user").  The stores are left unchanged, as the
claim requires. -/
theorem claim_C7_cross_user_rename_is_database_error :
    renameFolderById c7Store "f1" "u1" "NewName" =
      (Except.error (Err.database "An unexpected database error occurred."), c7Store)
    ∧ renameFileById c7Store "u1" "fl1" "b.txt" =
      (Except.error (Err.database "An unexpected database error occurred."), c7Store) :=
  ⟨rfl, rfl⟩

/-!  Properties of `jsTrim`, needed for the rename claims. -/

theorem head?_dropWhile_neg (p : Char → Bool) :
    ∀ (l : List Char) {c : Char}, (l.dropWhile p).head? = some c → p c = false := by
  intro l
  induction l with
  | nil => intro c h; simp at h
  | cons x xs ih =>
    intro c h
    rw [List.dropWhile_cons] at h
    by_cases hp : p x = true
    · rw [if_pos hp] at h
      exact ih h
    · rw [if_neg hp] at h
      have : x = c := by simpa using h
      rw [← this]
      exact Bool.not_eq_true _ ▸ hp

theorem getLast?_dropWhile_of_ne_nil (p : Char → Bool) :
    ∀ (l : List Char), l.dropWhile p ≠ [] →
      (l.dropWhile p).getLast? = l.getLast? := by
  intro l
  induction l with
  | nil => intro h; exact absurd rfl h
  | cons x xs ih =>
    intro h
    rw [List.dropWhile_cons] at h ⊢
    by_cases hp : p x = true
    · rw [if_pos hp] at h ⊢
      have hxs : xs.dropWhile p ≠ [] := h
      have hxsne : xs ≠ [] := by
        intro hc
        rw [hc] at hxs
        exact hxs rfl
      cases xs with
      | nil => exact absurd rfl hxsne
      | cons y ys => rw [ih hxs, List.getLast?_cons_cons]
    · rw [if_neg hp]

/-- The persisted-name shape check used by C9: neither the first nor the last
character is JavaScript whitespace. -/
def noEdgeWS (s : String) : Bool :=
  (match s.data.head? with
   | none => true
   | some c => !(jsWhitespace c)) &&
  (match s.data.getLast? with
   | none => true
   | some c => !(jsWhitespace c))

theorem noEdgeWS_jsTrim (s : String) : noEdgeWS (jsTrim s) = true := by
  unfold noEdgeWS jsTrim
  rw [Bool.and_eq_true]
  constructor
  · rw [show (String.mk (((s.data.dropWhile jsWhitespace).reverse.dropWhile
        jsWhitespace).reverse)).data =
      ((s.data.dropWhile jsWhitespace).reverse.dropWhile jsWhitespace).reverse from rfl]
    rw [List.head?_reverse]
    cases hm : ((s.data.dropWhile jsWhitespace).reverse.dropWhile jsWhitespace).getLast? with
    | none => rfl
    | some c =>
      have hne : (s.data.dropWhile jsWhitespace).reverse.dropWhile jsWhitespace ≠ [] := by
        intro hc
        rw [hc] at hm
        simp at hm
      rw [getLast?_dropWhile_of_ne_nil jsWhitespace _ hne, List.getLast?_reverse] at hm
      have hw := head?_dropWhile_neg jsWhitespace s.data hm
      simp [hw]
  · rw [show (String.mk (((s.data.dropWhile jsWhitespace).reverse.dropWhile
        jsWhitespace).reverse)).data =
      ((s.data.dropWhile jsWhitespace).reverse.dropWhile jsWhitespace).reverse from rfl]
    rw [List.getLast?_reverse]
    cases hm : ((s.data.dropWhile jsWhitespace).reverse.dropWhile jsWhitespace).head? with
    | none => rfl
    | some c =>
      have hw := head?_dropWhile_neg jsWhitespace _ hm
      simp [hw]

/-- Claim C9 — whenever a folder or file rename succeeds, the persisted name is
the *trimmed* input (`newName.trim()` is what the `data` clause stores), so a
successfully renamed record never carries leading or trailing whitespace —
even though the validation regexes themselves accept interior and edge spaces
(last two conjuncts). -/
theorem claim_C9_rename_stores_trimmed_name :
    (∀ (st : Store) (folderId userId newName : String) (r' : Folder) (st' : Store),
      renameFolderById st folderId userId newName = (Except.ok r', st') →
      r'.name = jsTrim newName ∧ noEdgeWS r'.name = true)
    ∧ (∀ (st : Store) (userId fileId newName : String) (r' : File) (st' : Store),
      renameFileById st userId fileId newName = (Except.ok r', st') →
      r'.filename = jsTrim newName ∧ noEdgeWS r'.filename = true)
    ∧ matchesFolderNameRegex " a b " = true ∧ matchesFileNameRegex " a b " = true := by
  refine ⟨?_, ?_, rfl, rfl⟩
  · intro st folderId userId newName r' st' h
    unfold renameFolderById at h
    split at h
    · simp at h
    · split at h
      · simp at h
      · split at h
        · simp at h
        · split at h
          · simp at h
          · dsimp only at h
            split at h
            · simp at h
            · rw [Prod.mk.injEq] at h
              have h1 : r' = _ := (Except.ok.inj h.1).symm
              rw [h1]
              exact ⟨rfl, noEdgeWS_jsTrim newName⟩
  · intro st userId fileId newName r' st' h
    unfold renameFileById at h
    split at h
    · simp at h
    · split at h
      · simp at h
      · split at h
        · simp at h
        · split at h
          · simp at h
          · dsimp only at h
            split at h
            · simp at h
            · rw [Prod.mk.injEq] at h
              have h1 : r' = _ := (Except.ok.inj h.1).symm
              rw [h1]
              exact ⟨rfl, noEdgeWS_jsTrim newName⟩

/-- Witness for C9: renaming folder `f1` and file `fl1` to `" new name "`
stores the trimmed `"new name"`. -/
def c9Store : Store :=
  ⟨[⟨"f1", "old", "u1", none⟩],
    [⟨"fl1", "c1", "old.txt", "txt", 1, "https://c1", "t", "u1", none⟩]⟩

theorem claim_C9_rename_stores_trimmed_name_witness :
    ((⟨"f1", "new name", "u1", none⟩ : Folder).name = jsTrim " new name "
      ∧ noEdgeWS (⟨"f1", "new name", "u1", none⟩ : Folder).name = true)
    ∧ ((⟨"fl1", "c1", "new name.txt", "txt", 1, "https://c1", "t", "u1", none⟩ : File).filename
          = jsTrim " new name.txt "
      ∧ noEdgeWS (⟨"fl1", "c1", "new name.txt", "txt", 1, "https://c1", "t", "u1",
          none⟩ : File).filename = true) :=
  ⟨claim_C9_rename_stores_trimmed_name.1 c9Store "f1" "u1" " new name "
      ⟨"f1", "new name", "u1", none⟩
      ⟨[⟨"f1", "new name", "u1", none⟩],
        [⟨"fl1", "c1", "old.txt", "txt", 1, "https://c1", "t", "u1", none⟩]⟩ rfl,
    claim_C9_rename_stores_trimmed_name.2.1 c9Store "u1" "fl1" " new name.txt "
      ⟨"fl1", "c1", "new name.txt", "txt", 1, "https://c1", "t", "u1", none⟩
      ⟨[⟨"f1", "old", "u1", none⟩],
        [⟨"fl1", "c1", "new name.txt", "txt", 1, "https://c1", "t", "u1", none⟩]⟩ rfl⟩

/-- C8 counterexample store: sibling folders `" x"` and `"x"` under the same
parent — a state reachable through `createFolder`, which applies neither trim
nor regex. -/
def c8Store : Store :=
  ⟨[⟨"p1", "parent", "u1", none⟩, ⟨"f1", " x", "u1", some "p1"⟩,
    ⟨"f2", "x", "u1", some "p1"⟩], []⟩

/-- Claim C8 counterexample — the current name " x" of folder f1 passes the
rename validation (regex accepts the leading space, the trim is non-empty),
yet renaming `f1` to its current name does NOT succeed: the update stores the
*trimmed* `"x"`, which collides with sibling `f2`, so the code answers with
the Conflict-kind unique-constraint error instead of returning the unchanged
record. -/
theorem claim_C8_counterexample :
    matchesFolderNameRegex " x" = true
    ∧ jsTrim " x" = "x"
    ∧ (renameFolderById c8Store "f1" "u1" " x").1 =
        Except.error (Err.validationErr
          "The following field(s) must be unique: name, userId, parentFolderId") :=
  ⟨rfl, rfl, rfl⟩

/-- Claim C8 (amended) — renaming a folder (resp. file) to its current name
succeeds and returns the unchanged record with the store untouched, provided
the current name passes the rename validation *and equals its own trim* (no
leading/trailing whitespace) and no distinct sibling row already carries the
same unique triple (which the store's unique index guarantees whenever the
parent is non-null and the trim condition holds; the counterexample shows the
claim fails without the trim proviso). -/
theorem claim_C8_rename_to_current_name (st : Store) :
    (∀ (folderId userId : String) (r : Folder),
      (st.folders.map Folder.id).Nodup →
      userId ≠ "" →
      findFolderScoped st folderId userId = some r →
      matchesFolderNameRegex r.name = true →
      jsTrim r.name = r.name →
      (∀ g ∈ st.folders, g.id = r.id ∨
        ¬(g.name = r.name ∧ g.userId = r.userId ∧ g.parentFolderId = r.parentFolderId)) →
      renameFolderById st folderId userId r.name = (Except.ok r, st))
    ∧ (∀ (fileId userId : String) (r : File),
      (st.files.map File.id).Nodup →
      userId ≠ "" →
      findFileScoped st fileId userId = some r →
      matchesFileNameRegex r.filename = true →
      jsTrim r.filename = r.filename →
      (∀ g ∈ st.files, g.id = r.id ∨
        ¬(g.filename = r.filename ∧ g.userId = r.userId ∧ g.folderId = r.folderId)) →
      renameFileById st userId fileId r.filename = (Except.ok r, st)) := by
  constructor
  · intro folderId userId r hnd hu hfind hregex htrim huniq
    have hmem : r ∈ st.folders := List.mem_of_find?_eq_some hfind
    have hnameNe : r.name ≠ "" := by
      intro hc
      rw [hc] at hregex
      simp [matchesFolderNameRegex] at hregex
    have hr' : ({ r with name := jsTrim r.name } : Folder) = r := by
      rw [htrim]
    have hconf : folderRenameConflict st.folders r (jsTrim r.name) = false := by
      rw [htrim]
      unfold folderRenameConflict
      rw [List.any_eq_false]
      intro g hg
      simp only [decide_eq_true_eq, not_and]
      intro hne hname huser hpar
      rcases huniq g hg with hid | hmis
      · exact absurd hid hne
      · exact fun _ => hmis ⟨hname, huser, hpar⟩
    unfold renameFolderById
    rw [if_neg hu]
    rw [if_neg (show ¬((decide (r.name = "") || decide (jsTrim r.name = "")) = true) by
      simp [hnameNe, htrim])]
    rw [if_neg (show ¬((!matchesFolderNameRegex r.name) = true) by simp [hregex])]
    rw [hfind]
    dsimp only
    rw [if_neg (show ¬(folderRenameConflict st.folders r (jsTrim r.name) = true) by
      simp [hconf])]
    rw [hr']
    have hmap : st.folders.map (fun g => if g.id = r.id then r else g) = st.folders := by
      have hcong : ∀ g ∈ st.folders, (if g.id = r.id then r else g) = g := by
        intro g hg
        by_cases hid : g.id = r.id
        · rw [if_pos hid]
          exact (List.inj_on_of_nodup_map hnd hg hmem hid).symm
        · rw [if_neg hid]
      rw [List.map_congr_left hcong, List.map_id']
    rw [hmap]
  · intro fileId userId r hnd hu hfind hregex htrim huniq
    have hmem : r ∈ st.files := List.mem_of_find?_eq_some hfind
    have hnameNe : r.filename ≠ "" := by
      intro hc
      rw [hc] at hregex
      simp [matchesFileNameRegex] at hregex
    have hr' : ({ r with filename := jsTrim r.filename } : File) = r := by
      rw [htrim]
    have hconf : fileRenameConflict st.files r (jsTrim r.filename) = false := by
      rw [htrim]
      unfold fileRenameConflict
      rw [List.any_eq_false]
      intro g hg
      simp only [decide_eq_true_eq, not_and]
      intro hne hname huser hpar
      rcases huniq g hg with hid | hmis
      · exact absurd hid hne
      · exact fun _ => hmis ⟨hname, huser, hpar⟩
    unfold renameFileById
    rw [if_neg hu]
    rw [if_neg (show ¬((decide (r.filename = "") || decide (jsTrim r.filename = "")) = true) by
      simp [hnameNe, htrim])]
    rw [if_neg (show ¬((!matchesFileNameRegex r.filename) = true) by simp [hregex])]
    rw [hfind]
    dsimp only
    rw [if_neg (show ¬(fileRenameConflict st.files r (jsTrim r.filename) = true) by
      simp [hconf])]
    rw [hr']
    have hmap : st.files.map (fun g => if g.id = r.id then r else g) = st.files := by
      have hcong : ∀ g ∈ st.files, (if g.id = r.id then r else g) = g := by
        intro g hg
        by_cases hid : g.id = r.id
        · rw [if_pos hid]
          exact (List.inj_on_of_nodup_map hnd hg hmem hid).symm
        · rw [if_neg hid]
      rw [List.map_congr_left hcong, List.map_id']
    rw [hmap]

/-- Witness store for the amended C8: a folder `docs` (trim-stable name)
inside `p1`, and a file `a.txt` inside `p1`. -/
def c8WStore : Store :=
  ⟨[⟨"p1", "parent", "u1", none⟩, ⟨"f1", "docs", "u1", some "p1"⟩],
    [⟨"fl1", "c1", "a.txt", "txt", 1, "https://c1", "t", "u1", some "p1"⟩]⟩

theorem claim_C8_rename_to_current_name_witness :
    renameFolderById c8WStore "f1" "u1" "docs" =
      (Except.ok (⟨"f1", "docs", "u1", some "p1"⟩ : Folder), c8WStore)
    ∧ renameFileById c8WStore "u1" "fl1" "a.txt" =
      (Except.ok (⟨"fl1", "c1", "a.txt", "txt", 1, "https://c1", "t", "u1",
        some "p1"⟩ : File), c8WStore) :=
  ⟨(claim_C8_rename_to_current_name c8WStore).1 "f1" "u1"
      ⟨"f1", "docs", "u1", some "p1"⟩ (by decide) (by decide) rfl rfl rfl (by decide),
    (claim_C8_rename_to_current_name c8WStore).2 "fl1" "u1"
      ⟨"fl1", "c1", "a.txt", "txt", 1, "https://c1", "t", "u1", some "p1"⟩
      (by decide) (by decide) rfl rfl rfl (by decide)⟩

/-!  Lemmas about `insertSkipDuplicates`, for C5. -/

theorem mem_foldl_insertStep :
    ∀ (rows : List File) (acc : Nat × List File) {x : File}, x ∈ acc.2 →
      x ∈ (rows.foldl insertStep acc).2 := by
  intro rows
  induction rows with
  | nil => intro acc x h; exact h
  | cons r rest ih =>
    intro acc x h
    show x ∈ (rest.foldl insertStep (insertStep acc r)).2
    apply ih
    unfold insertStep
    split
    · exact h
    · exact List.mem_append_left _ h

theorem foldl_insertStep_covers :
    ∀ (rows : List File) (acc : Nat × List File), ∀ r ∈ rows,
      ∃ g ∈ (rows.foldl insertStep acc).2, fileUniqueConflict g r = true := by
  intro rows
  induction rows with
  | nil => intro acc r h; simp at h
  | cons r0 rest ih =>
    intro acc r hr
    rcases List.mem_cons.mp hr with heq | htail
    · subst heq
      show ∃ g ∈ (rest.foldl insertStep (insertStep acc r)).2, _
      by_cases hc : acc.2.any (fun g => fileUniqueConflict g r) = true
      · rcases List.any_eq_true.mp hc with ⟨g, hg, hconf⟩
        exact ⟨g, mem_foldl_insertStep rest _
          (by unfold insertStep; rw [if_pos hc]; exact hg), hconf⟩
      · refine ⟨r, mem_foldl_insertStep rest _ ?_, ?_⟩
        · unfold insertStep
          rw [if_neg hc]
          exact List.mem_append_right _ (by simp)
        · unfold fileUniqueConflict
          simp
    · exact ih (insertStep acc r0) r htail

theorem foldl_insertStep_noop :
    ∀ (rows : List File) (acc : Nat × List File),
      (∀ r ∈ rows, ∃ g ∈ acc.2, fileUniqueConflict g r = true) →
      rows.foldl insertStep acc = acc := by
  intro rows
  induction rows with
  | nil => intro acc _; rfl
  | cons r0 rest ih =>
    intro acc h
    have hc : acc.2.any (fun g => fileUniqueConflict g r0) = true := by
      rcases h r0 (by simp) with ⟨g, hg, hconf⟩
      exact List.any_eq_true.mpr ⟨g, hg, hconf⟩
    show rest.foldl insertStep (insertStep acc r0) = acc
    have hstep : insertStep acc r0 = acc := by unfold insertStep; rw [if_pos hc]
    rw [hstep]
    exact ih acc (fun r hr => h r (List.mem_cons_of_mem r0 hr))

/-- The conflict test never inspects the generated row id, so it is invariant
under the id supply (uuid generation). -/
theorem fileUniqueConflict_irrel_id (g : File) (i1 i2 : String) (u : Upload)
    (uid : String) (fid : Option String) :
    fileUniqueConflict g (mkFileRow i1 u uid fid) =
      fileUniqueConflict g (mkFileRow i2 u uid fid) := rfl

/-- Claim C5 — calling `createFiles` twice with the same upload descriptors
(only the generated row ids differ between the calls) inserts each row at
most once: the first call returns `ok` (never an error — duplicates are
silently skipped), the second call returns `count = 0` and leaves the file
table exactly as the first call left it. -/
theorem claim_C5_createBatch_idempotent (st : Store) (uploads : List Upload)
    (userId : String) (folderId : Option String) (ids1 ids2 : Nat → String)
    (hu : userId ≠ "") :
    (∃ n, (createFiles st ids1 uploads userId folderId).1 = Except.ok n)
    ∧ (createFiles (createFiles st ids1 uploads userId folderId).2 ids2
        uploads userId folderId).1 = Except.ok 0
    ∧ (createFiles (createFiles st ids1 uploads userId folderId).2 ids2
        uploads userId folderId).2 = (createFiles st ids1 uploads userId folderId).2 := by
  have hopen : ∀ (s : Store) (ids : Nat → String),
      createFiles s ids uploads userId folderId =
        (Except.ok (insertSkipDuplicates s.files (uploadRows ids uploads userId folderId)).1,
          { s with files :=
            (insertSkipDuplicates s.files (uploadRows ids uploads userId folderId)).2 }) := by
    intro s ids
    unfold createFiles
    rw [if_neg hu]
  have hcov1 : ∀ r ∈ uploadRows ids1 uploads userId folderId,
      ∃ g ∈ (insertSkipDuplicates st.files (uploadRows ids1 uploads userId folderId)).2,
        fileUniqueConflict g r = true := by
    intro r hr
    exact foldl_insertStep_covers (uploadRows ids1 uploads userId folderId) (0, st.files) r hr
  have hcov2 : ∀ r ∈ uploadRows ids2 uploads userId folderId,
      ∃ g ∈ (insertSkipDuplicates st.files (uploadRows ids1 uploads userId folderId)).2,
        fileUniqueConflict g r = true := by
    intro r hr
    rcases List.mem_map.mp hr with ⟨iu, hiu, hrow⟩
    have h1 : mkFileRow (ids1 iu.1) iu.2 userId folderId ∈
        uploadRows ids1 uploads userId folderId :=
      List.mem_map.mpr ⟨iu, hiu, rfl⟩
    rcases hcov1 _ h1 with ⟨g, hg, hconf⟩
    refine ⟨g, hg, ?_⟩
    rw [← hrow, fileUniqueConflict_irrel_id g (ids2 iu.1) (ids1 iu.1) iu.2 userId folderId]
    exact hconf
  have hnoop : insertSkipDuplicates
      (insertSkipDuplicates st.files (uploadRows ids1 uploads userId folderId)).2
      (uploadRows ids2 uploads userId folderId) =
      (0, (insertSkipDuplicates st.files (uploadRows ids1 uploads userId folderId)).2) := by
    unfold insertSkipDuplicates
    exact foldl_insertStep_noop (uploadRows ids2 uploads userId folderId) _ hcov2
  refine ⟨⟨(insertSkipDuplicates st.files (uploadRows ids1 uploads userId folderId)).1, ?_⟩,
    ?_, ?_⟩
  · rw [hopen st ids1]
  · rw [hopen st ids1, hopen _ ids2]
    show Except.ok (insertSkipDuplicates
      (insertSkipDuplicates st.files (uploadRows ids1 uploads userId folderId)).2
      (uploadRows ids2 uploads userId folderId)).1 = Except.ok 0
    rw [hnoop]
  · rw [hopen st ids1, hopen _ ids2]
    show Store.mk st.folders
        (insertSkipDuplicates
          (insertSkipDuplicates st.files (uploadRows ids1 uploads userId folderId)).2
          (uploadRows ids2 uploads userId folderId)).2 =
      Store.mk st.folders
        (insertSkipDuplicates st.files (uploadRows ids1 uploads userId folderId)).2
    rw [hnoop]

/-- Witness uploads for C5: one Cloudinary descriptor. -/
def c5Uploads : List Upload := [⟨"c1.png", "a", 5, "https://u1", "t1"⟩]

theorem claim_C5_createBatch_idempotent_witness :
    (∃ n, (createFiles ⟨[], []⟩ (fun _ => "id1") c5Uploads "u1" none).1 = Except.ok n)
    ∧ (createFiles (createFiles ⟨[], []⟩ (fun _ => "id1") c5Uploads "u1" none).2
        (fun _ => "id2") c5Uploads "u1" none).1 = Except.ok 0
    ∧ (createFiles (createFiles ⟨[], []⟩ (fun _ => "id1") c5Uploads "u1" none).2
        (fun _ => "id2") c5Uploads "u1" none).2 =
      (createFiles ⟨[], []⟩ (fun _ => "id1") c5Uploads "u1" none).2 :=
  claim_C5_createBatch_idempotent ⟨[], []⟩ c5Uploads "u1" none
    (fun _ => "id1") (fun _ => "id2") (by decide)

end OdinFU
